import Mathlib

/-!
Shallow embedding of the orml asset-registry pallet
(src/asset-registry/src/lib.rs).

The pallet keeps two storage maps:
  Metadata          : AssetId -> AssetMetadata      (primary store)
  LocationToAssetId : MultiLocation -> AssetId      (secondary index)

We model storage as explicit state passing.  Raw pallet helpers
(Pallet::do_register_asset, Pallet::do_update_asset, ...) return the state
as mutated so far even on error, mirroring direct FRAME storage writes;
the two dispatchable calls register_asset and update_asset carry the
transactional attribute, which reverts all storage writes and deposited
events when the call returns an error, and is modelled by the wrappers
at the end of the file.

Opaque chain types are instantiated with concrete Lean types: asset ids,
balances, custom metadata and canonical multilocations become Nat, byte
vectors become List Nat.  VersionedMultiLocation is a version tag plus a
payload; the TryFrom conversion to the canonical MultiLocation succeeds
exactly for the supported versions (tag 0 or 1), so that distinct
versioned values can share a canonical form and unsupported versions
fail to decode, as with the real xcm versioned type.
-/

namespace AssetRegistry

abbrev AssetId := Nat
abbrev MultiLocation := Nat
abbrev Balance := Nat
abbrev CustomMetadata := Nat

/-- Model of xcm VersionedMultiLocation: a version tag and a payload. -/
structure VersionedMultiLocation where
  version : Nat
  payload : MultiLocation
deriving DecidableEq, Repr

/-- Model of the TryFrom conversion of a VersionedMultiLocation into the
canonical current-version MultiLocation: succeeds exactly for supported
version tags, fails (Err) otherwise. -/
def decodeLocation (v : VersionedMultiLocation) : Option MultiLocation :=
  if v.version ≤ 1 then some v.payload else none

/-- Errors of the pallet, from the pallet error enum in lib.rs. -/
inductive Error where
  | AssetNotFound
  | BadVersion
  | InvalidAssetId
  | ConflictingLocation
  | ConflictingAssetId
deriving DecidableEq, Repr

/-- AssetMetadata from lib.rs: data describing the asset properties. -/
structure AssetMetadata where
  decimals : Nat
  name : List Nat
  symbol : List Nat
  existential_deposit : Balance
  location : Option VersionedMultiLocation
  additional : CustomMetadata
deriving DecidableEq, Repr

/-- Events deposited by the pallet, from the pallet event enum in lib.rs. -/
inductive Event where
  | RegisteredAsset (asset_id : AssetId) (metadata : AssetMetadata)
  | UpdatedAsset (asset_id : AssetId) (metadata : AssetMetadata)
  | SetLocation (asset_id : AssetId) (location : VersionedMultiLocation)
deriving DecidableEq, Repr

/-- The two storage maps of the pallet. -/
structure RegistryState where
  metadata : AssetId → Option AssetMetadata
  locationToAssetId : MultiLocation → Option AssetId

/-- Empty storage; the genesis build of the pallet writes nothing. -/
def initialState : RegistryState :=
  { metadata := fun _ => none, locationToAssetId := fun _ => none }

/-- Point update of the Metadata storage map. -/
def setMd (s : RegistryState) (id : AssetId) (v : Option AssetMetadata) : RegistryState :=
  { s with metadata := fun i => if i = id then v else s.metadata i }

/-- Point update of the LocationToAssetId storage map. -/
def setLocIx (s : RegistryState) (l : MultiLocation) (v : Option AssetId) : RegistryState :=
  { s with locationToAssetId := fun x => if x = l then v else s.locationToAssetId x }

/-- Pallet::do_insert_location.  Decodes the versioned location (BadVersion
on failure) and inserts it into LocationToAssetId via try_mutate, failing
with ConflictingLocation when the slot is occupied.  No storage write is
performed on any error path. -/
def do_insert_location (asset_id : AssetId) (location : VersionedMultiLocation)
    (s : RegistryState) : Except Error Unit × RegistryState :=
  match decodeLocation location with
  | none => (.error .BadVersion, s)
  | some loc =>
    match s.locationToAssetId loc with
    | some _ => (.error .ConflictingLocation, s)
    | none => (.ok (), setLocIx s loc (some asset_id))

/-- Pallet::do_update_location.  Updates LocationToAssetId only if the new
versioned location differs from the old one; then removes the decoded old
location (BadVersion when the stored value does not decode) and inserts
the decoded new one. -/
def do_update_location (asset_id : AssetId) (old_location : Option VersionedMultiLocation)
    (new_location : Option VersionedMultiLocation) (s : RegistryState) :
    Except Error Unit × RegistryState :=
  if new_location ≠ old_location then
    match old_location with
    | some ol =>
      match decodeLocation ol with
      | none => (.error .BadVersion, s)
      | some loc =>
        match new_location with
        | some nl => do_insert_location asset_id nl (setLocIx s loc none)
        | none => (.ok (), setLocIx s loc none)
    | none =>
      match new_location with
      | some nl => do_insert_location asset_id nl s
      | none => (.ok (), s)
  else (.ok (), s)

/-- Pallet::do_register_asset_without_asset_processor.  Metadata::try_mutate
ensures the asset id is unregistered (ConflictingAssetId otherwise), stores
the record, inserts the location if present, and deposits RegisteredAsset.
On error inside the closure the Metadata write is not applied. -/
def do_register_asset_without_asset_processor (metadata : AssetMetadata) (asset_id : AssetId)
    (s : RegistryState) : Except Error Unit × RegistryState × List Event :=
  match s.metadata asset_id with
  | some _ => (.error .ConflictingAssetId, s, [])
  | none =>
    match metadata.location with
    | none => (.ok (), setMd s asset_id (some metadata), [.RegisteredAsset asset_id metadata])
    | some location =>
      match do_insert_location asset_id location s with
      | (.error e, s1) => (.error e, s1, [])
      | (.ok (), s1) =>
        (.ok (), setMd s1 asset_id (some metadata), [.RegisteredAsset asset_id metadata])

/-- The AssetProcessor interface (orml_traits::asset_registry::AssetProcessor)
seen by the pallet: a pre-registration hook that finalises the id and the
metadata, and a post-registration hook. -/
structure AssetProcessor where
  pre_register : Option AssetId → AssetMetadata → Except Error (AssetId × AssetMetadata)
  post_register : AssetId → AssetMetadata → Except Error Unit

/-- Pallet::do_register_asset: pre_register, the raw registration, then
post_register.  Without the transactional wrapper, storage writes performed
before a post_register failure would persist. -/
def do_register_asset (ap : AssetProcessor) (metadata : AssetMetadata)
    (asset_id : Option AssetId) (s : RegistryState) :
    Except Error Unit × RegistryState × List Event :=
  match ap.pre_register asset_id metadata with
  | .error e => (.error e, s, [])
  | .ok (id, md) =>
    match do_register_asset_without_asset_processor md id s with
    | (.error e, s1, evs) => (.error e, s1, evs)
    | (.ok (), s1, evs) =>
      match ap.post_register id md with
      | .error e => (.error e, s1, evs)
      | .ok () => (.ok (), s1, evs)

/-- Pallet::do_update_asset.  Metadata::try_mutate fetches the record
(AssetNotFound when absent), overwrites each supplied field, updates the
location index when a location argument is supplied, and deposits
UpdatedAsset.  On error the Metadata write is not applied. -/
def do_update_asset (asset_id : AssetId) (decimals : Option Nat) (name : Option (List Nat))
    (symbol : Option (List Nat)) (existential_deposit : Option Balance)
    (location : Option (Option VersionedMultiLocation)) (additional : Option CustomMetadata)
    (s : RegistryState) : Except Error Unit × RegistryState × List Event :=
  match s.metadata asset_id with
  | none => (.error .AssetNotFound, s, [])
  | some md0 =>
    let md1 : AssetMetadata :=
      { md0 with
        decimals := decimals.getD md0.decimals
        name := name.getD md0.name
        symbol := symbol.getD md0.symbol
        existential_deposit := existential_deposit.getD md0.existential_deposit }
    match location with
    | none =>
      let md2 : AssetMetadata := { md1 with additional := additional.getD md1.additional }
      (.ok (), setMd s asset_id (some md2), [.UpdatedAsset asset_id md2])
    | some new_location =>
      match do_update_location asset_id md1.location new_location s with
      | (.error e, s1) => (.error e, s1, [])
      | (.ok (), s1) =>
        let md2 : AssetMetadata :=
          { md1 with location := new_location, additional := additional.getD md1.additional }
        (.ok (), setMd s1 asset_id (some md2), [.UpdatedAsset asset_id md2])

/-- The register_asset dispatchable after the origin check: transactional,
so an error reverts every storage write and deposited event. -/
def register_asset (ap : AssetProcessor) (metadata : AssetMetadata) (asset_id : Option AssetId)
    (s : RegistryState) : Except Error Unit × RegistryState × List Event :=
  match do_register_asset ap metadata asset_id s with
  | (.error e, _, _) => (.error e, s, [])
  | (.ok (), s1, evs) => (.ok (), s1, evs)

/-- The update_asset dispatchable after the origin check: transactional,
so an error reverts every storage write and deposited event. -/
def update_asset (asset_id : AssetId) (decimals : Option Nat) (name : Option (List Nat))
    (symbol : Option (List Nat)) (existential_deposit : Option Balance)
    (location : Option (Option VersionedMultiLocation)) (additional : Option CustomMetadata)
    (s : RegistryState) : Except Error Unit × RegistryState × List Event :=
  match do_update_asset asset_id decimals name symbol existential_deposit location additional s with
  | (.error e, _, _) => (.error e, s, [])
  | (.ok (), s1, evs) => (.ok (), s1, evs)

/-- Pallet::fetch_metadata_by_location: LocationToAssetId then Metadata. -/
def fetch_metadata_by_location (s : RegistryState) (location : MultiLocation) :
    Option AssetMetadata :=
  match s.locationToAssetId location with
  | none => none
  | some asset_id => s.metadata asset_id

/-- Pallet::multilocation: fetch the record and decode its stored location;
BadVersion when the stored versioned value does not decode, none when
there is no record or no location. -/
def multilocation (s : RegistryState) (asset_id : AssetId) :
    Except Error (Option MultiLocation) :=
  match s.metadata asset_id with
  | none => .ok none
  | some md =>
    match md.location with
    | none => .ok none
    | some l =>
      match decodeLocation l with
      | none => .error .BadVersion
      | some loc => .ok (some loc)

/-- States reachable from genesis through committed dispatchable calls
(register_asset and update_asset), for a fixed asset processor. -/
inductive Reachable (ap : AssetProcessor) : RegistryState → Prop where
  | init : Reachable ap initialState
  | register (metadata : AssetMetadata) (asset_id : Option AssetId) (s : RegistryState) :
      Reachable ap s → Reachable ap (register_asset ap metadata asset_id s).2.1
  | update (asset_id : AssetId) (decimals : Option Nat) (name : Option (List Nat))
      (symbol : Option (List Nat)) (existential_deposit : Option Balance)
      (location : Option (Option VersionedMultiLocation)) (additional : Option CustomMetadata)
      (s : RegistryState) : Reachable ap s →
      Reachable ap
        (update_asset asset_id decimals name symbol existential_deposit location additional
          s).2.1

/-- Bidirectional consistency of the two storage maps: a stored metadata
location that decodes to canonical L is indexed under L, and every index
entry points back to a record whose stored location decodes to its key. -/
def Consistent (s : RegistryState) : Prop :=
  (∀ id md vl loc, s.metadata id = some md → md.location = some vl →
      decodeLocation vl = some loc → s.locationToAssetId loc = some id) ∧
  (∀ loc id, s.locationToAssetId loc = some id →
      ∃ md vl, s.metadata id = some md ∧ md.location = some vl ∧ decodeLocation vl = some loc)

/-! Concrete inputs used to witness the theorems below. -/

/-- An asset processor that keeps the supplied id (0 when absent) and the
supplied metadata, and whose post-registration hook always succeeds. -/
def apNoop : AssetProcessor :=
  { pre_register := fun aid md => .ok (aid.getD 0, md)
    post_register := fun _ _ => .ok () }

/-- An asset processor whose post-registration hook always fails. -/
def apFailPost : AssetProcessor :=
  { pre_register := fun aid md => .ok (aid.getD 0, md)
    post_register := fun _ _ => .error .InvalidAssetId }

/-- A decodable versioned location with canonical form 10. -/
def vlA : VersionedMultiLocation := { version := 1, payload := 10 }

/-- A decodable versioned location with canonical form 20. -/
def vlB : VersionedMultiLocation := { version := 1, payload := 20 }

/-- A versioned location with an unsupported version: decoding fails. -/
def vlBad : VersionedMultiLocation := { version := 9, payload := 10 }

/-- Sample metadata holding location vlA. -/
def mdA : AssetMetadata :=
  { decimals := 6, name := [85, 83, 68, 67], symbol := [85, 83, 68, 67],
    existential_deposit := 1, location := some vlA, additional := 0 }

/-- Sample metadata holding location vlB. -/
def mdB : AssetMetadata :=
  { decimals := 12, name := [68, 79, 84], symbol := [68, 79, 84],
    existential_deposit := 2, location := some vlB, additional := 0 }

/-- Sample metadata holding the undecodable location vlBad. -/
def mdBad : AssetMetadata :=
  { decimals := 8, name := [66], symbol := [66],
    existential_deposit := 3, location := some vlBad, additional := 0 }

/-- State with asset 1 registered at location vlA (canonical 10). -/
def stateA : RegistryState :=
  { metadata := fun i => if i = 1 then some mdA else none
    locationToAssetId := fun l => if l = 10 then some 1 else none }

/-- State with asset 1 at location vlA (canonical 10) and asset 2 at
location vlB (canonical 20). -/
def stateAB : RegistryState :=
  { metadata := fun i => if i = 1 then some mdA else if i = 2 then some mdB else none
    locationToAssetId := fun l => if l = 10 then some 1 else if l = 20 then some 2 else none }

/-- State with asset 1 holding the undecodable stored location vlBad. -/
def stateBadLoc : RegistryState :=
  { metadata := fun i => if i = 1 then some mdBad else none
    locationToAssetId := fun _ => none }

/-! Storage accessor lemmas. -/

@[simp] theorem setMd_metadata (s : RegistryState) (id : AssetId) (v : Option AssetMetadata)
    (i : AssetId) : (setMd s id v).metadata i = if i = id then v else s.metadata i := rfl

@[simp] theorem setMd_locationToAssetId (s : RegistryState) (id : AssetId)
    (v : Option AssetMetadata) (l : MultiLocation) :
    (setMd s id v).locationToAssetId l = s.locationToAssetId l := rfl

@[simp] theorem setLocIx_locationToAssetId (s : RegistryState) (l : MultiLocation)
    (v : Option AssetId) (x : MultiLocation) :
    (setLocIx s l v).locationToAssetId x = if x = l then v else s.locationToAssetId x := rfl

@[simp] theorem setLocIx_metadata (s : RegistryState) (l : MultiLocation) (v : Option AssetId)
    (i : AssetId) : (setLocIx s l v).metadata i = s.metadata i := rfl

/-! Characterizations of the success paths of the storage helpers. -/

theorem do_insert_location_ok (asset_id : AssetId) (l : VersionedMultiLocation)
    (s s1 : RegistryState) (h : do_insert_location asset_id l s = (.ok (), s1)) :
    ∃ loc, decodeLocation l = some loc ∧ s.locationToAssetId loc = none ∧
      s1 = setLocIx s loc (some asset_id) := by
  unfold do_insert_location at h
  rcases hd : decodeLocation l with _ | loc
  · simp only [hd] at h
    exact Except.noConfusion (congrArg Prod.fst h)
  · simp only [hd] at h
    rcases hfree : s.locationToAssetId loc with _ | a
    · simp only [hfree] at h
      exact ⟨loc, rfl, hfree, (congrArg Prod.snd h).symm⟩
    · simp only [hfree] at h
      exact Except.noConfusion (congrArg Prod.fst h)

theorem do_update_location_ok (asset_id : AssetId)
    (old_location new_location : Option VersionedMultiLocation) (s s1 : RegistryState)
    (h : do_update_location asset_id old_location new_location s = (.ok (), s1)) :
    (new_location = old_location ∧ s1 = s) ∨
    (new_location ≠ old_location ∧
      ((old_location = none ∧ ∃ nl nloc, new_location = some nl ∧
          decodeLocation nl = some nloc ∧ s.locationToAssetId nloc = none ∧
          s1 = setLocIx s nloc (some asset_id)) ∨
       (∃ ol oloc, old_location = some ol ∧ decodeLocation ol = some oloc ∧
         ((new_location = none ∧ s1 = setLocIx s oloc none) ∨
          (∃ nl nloc, new_location = some nl ∧ decodeLocation nl = some nloc ∧
            (setLocIx s oloc none).locationToAssetId nloc = none ∧
            s1 = setLocIx (setLocIx s oloc none) nloc (some asset_id)))))) := by
  unfold do_update_location at h
  by_cases hne : new_location ≠ old_location
  · rw [if_pos hne] at h
    right
    refine ⟨hne, ?_⟩
    rcases hol : old_location with _ | ol
    · left
      subst hol
      rcases hnl : new_location with _ | nl
      · exact absurd hnl hne
      · simp only [hnl] at h
        obtain ⟨nloc, hdec, hfree, hs1⟩ := do_insert_location_ok asset_id nl s s1 h
        exact ⟨rfl, nl, nloc, rfl, hdec, hfree, hs1⟩
    · right
      subst hol
      rcases hd : decodeLocation ol with _ | oloc
      · simp only [hd] at h
        exact Except.noConfusion (congrArg Prod.fst h)
      · simp only [hd] at h
        refine ⟨ol, oloc, rfl, hd, ?_⟩
        rcases hnl : new_location with _ | nl
        · left
          simp only [hnl] at h
          exact ⟨rfl, (congrArg Prod.snd h).symm⟩
        · right
          simp only [hnl] at h
          obtain ⟨nloc, hdec, hfree, hs1⟩ :=
            do_insert_location_ok asset_id nl (setLocIx s oloc none) s1 h
          exact ⟨nl, nloc, rfl, hdec, hfree, hs1⟩
  · rw [if_neg hne] at h
    exact Or.inl ⟨not_not.mp hne, (congrArg Prod.snd h).symm⟩

theorem register_wap_ok (md : AssetMetadata) (id : AssetId) (s s1 : RegistryState)
    (evs : List Event)
    (h : do_register_asset_without_asset_processor md id s = (.ok (), s1, evs)) :
    s.metadata id = none ∧ evs = [.RegisteredAsset id md] ∧
      ((md.location = none ∧ s1 = setMd s id (some md)) ∨
       (∃ vl loc, md.location = some vl ∧ decodeLocation vl = some loc ∧
         s.locationToAssetId loc = none ∧
         s1 = setMd (setLocIx s loc (some id)) id (some md))) := by
  unfold do_register_asset_without_asset_processor at h
  rcases hmd : s.metadata id with _ | md0
  · simp only [hmd] at h
    rcases hloc : md.location with _ | vl
    · simp only [hloc] at h
      have hs1 := congrArg (fun p => p.snd.fst) h
      have hevs := congrArg (fun p => p.snd.snd) h
      exact ⟨rfl, hevs.symm, Or.inl ⟨rfl, hs1.symm⟩⟩
    · simp only [hloc] at h
      rcases hins : do_insert_location id vl s with ⟨r, sIns⟩
      rcases r with e | u
      · simp only [hins] at h
        exact Except.noConfusion (congrArg Prod.fst h)
      · cases u
        simp only [hins] at h
        have hs1 : setMd sIns id (some md) = s1 := congrArg (fun p => p.snd.fst) h
        have hevs : [Event.RegisteredAsset id md] = evs := congrArg (fun p => p.snd.snd) h
        obtain ⟨loc, hdec, hfree, hsIns⟩ := do_insert_location_ok id vl s sIns hins
        refine ⟨rfl, hevs.symm, Or.inr ⟨vl, loc, rfl, hdec, hfree, ?_⟩⟩
        rw [← hs1, hsIns]
  · simp only [hmd] at h
    exact Except.noConfusion (congrArg Prod.fst h)

theorem do_register_asset_ok (ap : AssetProcessor) (md : AssetMetadata)
    (aid : Option AssetId) (s s1 : RegistryState) (evs : List Event)
    (h : do_register_asset ap md aid s = (.ok (), s1, evs)) :
    ∃ id md2, ap.pre_register aid md = .ok (id, md2) ∧
      do_register_asset_without_asset_processor md2 id s = (.ok (), s1, evs) ∧
      ap.post_register id md2 = .ok () := by
  unfold do_register_asset at h
  rcases hpre : ap.pre_register aid md with e | ⟨id, md2⟩
  · simp only [hpre] at h
    exact Except.noConfusion (congrArg Prod.fst h)
  · simp only [hpre] at h
    rcases hwap : do_register_asset_without_asset_processor md2 id s with ⟨r, s2, evs2⟩
    simp only [hwap] at h
    rcases r with e | u
    · exact Except.noConfusion (congrArg Prod.fst h)
    · cases u
      rcases hpost : ap.post_register id md2 with e | u2
      · simp only [hpost] at h
        exact Except.noConfusion (congrArg Prod.fst h)
      · cases u2
        simp only [hpost] at h
        have hs1 : s2 = s1 := congrArg (fun p => p.snd.fst) h
        have hevs : evs2 = evs := congrArg (fun p => p.snd.snd) h
        subst hs1
        subst hevs
        exact ⟨id, md2, rfl, hwap, hpost⟩

theorem do_update_asset_ok (asset_id : AssetId) (decimals : Option Nat)
    (name symbol : Option (List Nat)) (existential_deposit : Option Balance)
    (location : Option (Option VersionedMultiLocation)) (additional : Option CustomMetadata)
    (s s1 : RegistryState) (evs : List Event)
    (h : do_update_asset asset_id decimals name symbol existential_deposit location additional s
      = (.ok (), s1, evs)) :
    ∃ md0, s.metadata asset_id = some md0 ∧
      ((location = none ∧ ∃ md2, md2.location = md0.location ∧
          s1 = setMd s asset_id (some md2) ∧ evs = [.UpdatedAsset asset_id md2]) ∨
       (∃ nl2 sMid md2, location = some nl2 ∧ md2.location = nl2 ∧
          do_update_location asset_id md0.location nl2 s = (.ok (), sMid) ∧
          s1 = setMd sMid asset_id (some md2) ∧ evs = [.UpdatedAsset asset_id md2])) := by
  unfold do_update_asset at h
  rcases hmd : s.metadata asset_id with _ | md0
  · simp only [hmd] at h
    exact Except.noConfusion (congrArg Prod.fst h)
  · simp only [hmd] at h
    refine ⟨md0, rfl, ?_⟩
    rcases hl : location with _ | nl2
    · left
      subst hl
      have hs1 : setMd s asset_id (some
          { md0 with
            decimals := decimals.getD md0.decimals
            name := name.getD md0.name
            symbol := symbol.getD md0.symbol
            existential_deposit := existential_deposit.getD md0.existential_deposit
            additional := additional.getD md0.additional }) = s1 :=
        congrArg (fun p => p.snd.fst) h
      have hevs : [Event.UpdatedAsset asset_id
          { md0 with
            decimals := decimals.getD md0.decimals
            name := name.getD md0.name
            symbol := symbol.getD md0.symbol
            existential_deposit := existential_deposit.getD md0.existential_deposit
            additional := additional.getD md0.additional }] = evs :=
        congrArg (fun p => p.snd.snd) h
      exact ⟨rfl,
        { md0 with
          decimals := decimals.getD md0.decimals
          name := name.getD md0.name
          symbol := symbol.getD md0.symbol
          existential_deposit := existential_deposit.getD md0.existential_deposit
          additional := additional.getD md0.additional }, rfl, hs1.symm, hevs.symm⟩
    · right
      subst hl
      rcases hupd : do_update_location asset_id md0.location nl2 s with ⟨r, sMid⟩
      have hupd2 : do_update_location asset_id
          (AssetMetadata.location
            { md0 with
              decimals := decimals.getD md0.decimals
              name := name.getD md0.name
              symbol := symbol.getD md0.symbol
              existential_deposit := existential_deposit.getD md0.existential_deposit })
          nl2 s = (r, sMid) := hupd
      rcases r with e | u
      · simp only [hupd2] at h
        exact Except.noConfusion (congrArg Prod.fst h)
      · cases u
        simp only [hupd2] at h
        have hs1 : setMd sMid asset_id (some
            { md0 with
              decimals := decimals.getD md0.decimals
              name := name.getD md0.name
              symbol := symbol.getD md0.symbol
              existential_deposit := existential_deposit.getD md0.existential_deposit
              location := nl2
              additional := additional.getD md0.additional }) = s1 :=
          congrArg (fun p => p.snd.fst) h
        have hevs : [Event.UpdatedAsset asset_id
            { md0 with
              decimals := decimals.getD md0.decimals
              name := name.getD md0.name
              symbol := symbol.getD md0.symbol
              existential_deposit := existential_deposit.getD md0.existential_deposit
              location := nl2
              additional := additional.getD md0.additional }] = evs :=
          congrArg (fun p => p.snd.snd) h
        exact ⟨nl2, sMid,
          { md0 with
            decimals := decimals.getD md0.decimals
            name := name.getD md0.name
            symbol := symbol.getD md0.symbol
            existential_deposit := existential_deposit.getD md0.existential_deposit
            location := nl2
            additional := additional.getD md0.additional }, rfl, rfl, hupd, hs1.symm, hevs.symm⟩

/-! Preservation of the bidirectional consistency invariant. -/

theorem consistent_initial : Consistent initialState := by
  constructor
  · intro i m vl loc hm _ _
    exact absurd hm (by simp [initialState])
  · intro loc i hix
    exact absurd hix (by simp [initialState])

theorem consistent_register_noloc (s : RegistryState) (id : AssetId) (md : AssetMetadata)
    (h : Consistent s) (hid : s.metadata id = none) (hloc : md.location = none) :
    Consistent (setMd s id (some md)) := by
  obtain ⟨hF, hB⟩ := h
  constructor
  · intro i m vl loc hm hl hd
    simp only [setMd_metadata, setMd_locationToAssetId] at *
    by_cases hi : i = id
    · rw [if_pos hi] at hm
      cases hm
      rw [hloc] at hl
      cases hl
    · rw [if_neg hi] at hm
      exact hF i m vl loc hm hl hd
  · intro loc i hix
    simp only [setMd_locationToAssetId] at hix
    obtain ⟨m, vl, hm, hl, hd⟩ := hB loc i hix
    refine ⟨m, vl, ?_, hl, hd⟩
    simp only [setMd_metadata]
    by_cases hi : i = id
    · rw [hi, hid] at hm
      cases hm
    · rw [if_neg hi]
      exact hm

theorem consistent_register_withloc (s : RegistryState) (id : AssetId) (md : AssetMetadata)
    (vl : VersionedMultiLocation) (loc : MultiLocation)
    (h : Consistent s) (hid : s.metadata id = none) (hmdloc : md.location = some vl)
    (hdec : decodeLocation vl = some loc) (hfree : s.locationToAssetId loc = none) :
    Consistent (setMd (setLocIx s loc (some id)) id (some md)) := by
  obtain ⟨hF, hB⟩ := h
  constructor
  · intro i m vl2 loc2 hm hl hd
    simp only [setMd_metadata, setLocIx_metadata, setMd_locationToAssetId,
      setLocIx_locationToAssetId] at *
    by_cases hi : i = id
    · subst hi
      rw [if_pos rfl] at hm
      cases hm
      rw [hmdloc] at hl
      cases hl
      rw [hdec] at hd
      cases hd
      rw [if_pos rfl]
    · rw [if_neg hi] at hm
      have hix := hF i m vl2 loc2 hm hl hd
      by_cases hl2 : loc2 = loc
      · subst hl2
        rw [hfree] at hix
        cases hix
      · rw [if_neg hl2]
        exact hix
  · intro loc2 i hix
    simp only [setMd_locationToAssetId, setLocIx_locationToAssetId] at hix
    simp only [setMd_metadata, setLocIx_metadata]
    by_cases hl2 : loc2 = loc
    · subst hl2
      rw [if_pos rfl] at hix
      cases hix
      exact ⟨md, vl, by rw [if_pos rfl], hmdloc, hdec⟩
    · rw [if_neg hl2] at hix
      obtain ⟨m, vl2, hm, hl, hd⟩ := hB loc2 i hix
      by_cases hi : i = id
      · subst hi
        rw [hid] at hm
        cases hm
      · exact ⟨m, vl2, by rw [if_neg hi]; exact hm, hl, hd⟩

theorem consistent_update_keep (s : RegistryState) (id : AssetId) (md0 md2 : AssetMetadata)
    (h : Consistent s) (hmd : s.metadata id = some md0)
    (hloc : md2.location = md0.location) : Consistent (setMd s id (some md2)) := by
  obtain ⟨hF, hB⟩ := h
  constructor
  · intro i m vl loc hm hl hd
    simp only [setMd_metadata, setMd_locationToAssetId] at *
    by_cases hi : i = id
    · subst hi
      rw [if_pos rfl] at hm
      cases hm
      rw [hloc] at hl
      exact hF i md0 vl loc hmd hl hd
    · rw [if_neg hi] at hm
      exact hF i m vl loc hm hl hd
  · intro loc i hix
    simp only [setMd_locationToAssetId] at hix
    obtain ⟨m, vl, hm, hl, hd⟩ := hB loc i hix
    simp only [setMd_metadata]
    by_cases hi : i = id
    · subst hi
      rw [hmd] at hm
      cases hm
      exact ⟨md2, vl, by rw [if_pos rfl], by rw [hloc]; exact hl, hd⟩
    · exact ⟨m, vl, by rw [if_neg hi]; exact hm, hl, hd⟩

theorem consistent_update_clear (s : RegistryState) (id : AssetId) (md0 md2 : AssetMetadata)
    (ol : VersionedMultiLocation) (oloc : MultiLocation)
    (h : Consistent s) (hmd : s.metadata id = some md0) (hol : md0.location = some ol)
    (hdec : decodeLocation ol = some oloc) (hm2 : md2.location = none) :
    Consistent (setMd (setLocIx s oloc none) id (some md2)) := by
  obtain ⟨hF, hB⟩ := h
  have hself : s.locationToAssetId oloc = some id := hF id md0 ol oloc hmd hol hdec
  constructor
  · intro i m vl loc hm hl hd
    simp only [setMd_metadata, setLocIx_metadata, setMd_locationToAssetId,
      setLocIx_locationToAssetId] at *
    by_cases hi : i = id
    · subst hi
      rw [if_pos rfl] at hm
      cases hm
      rw [hm2] at hl
      cases hl
    · rw [if_neg hi] at hm
      have hix := hF i m vl loc hm hl hd
      by_cases hlo : loc = oloc
      · subst hlo
        rw [hself] at hix
        cases hix
        exact absurd rfl hi
      · rw [if_neg hlo]
        exact hix
  · intro loc i hix
    simp only [setMd_locationToAssetId, setLocIx_locationToAssetId] at hix
    simp only [setMd_metadata, setLocIx_metadata]
    by_cases hlo : loc = oloc
    · subst hlo
      rw [if_pos rfl] at hix
      cases hix
    · rw [if_neg hlo] at hix
      obtain ⟨m, vl, hm, hl, hd⟩ := hB loc i hix
      by_cases hi : i = id
      · subst hi
        rw [hmd] at hm
        cases hm
        rw [hol] at hl
        cases hl
        rw [hdec] at hd
        cases hd
        exact absurd rfl hlo
      · exact ⟨m, vl, by rw [if_neg hi]; exact hm, hl, hd⟩

theorem consistent_update_add (s : RegistryState) (id : AssetId) (md0 md2 : AssetMetadata)
    (nl : VersionedMultiLocation) (nloc : MultiLocation)
    (h : Consistent s) (hmd : s.metadata id = some md0) (hol : md0.location = none)
    (hm2 : md2.location = some nl) (hdecn : decodeLocation nl = some nloc)
    (hfree : s.locationToAssetId nloc = none) :
    Consistent (setMd (setLocIx s nloc (some id)) id (some md2)) := by
  obtain ⟨hF, hB⟩ := h
  constructor
  · intro i m vl loc hm hl hd
    simp only [setMd_metadata, setLocIx_metadata, setMd_locationToAssetId,
      setLocIx_locationToAssetId] at *
    by_cases hi : i = id
    · subst hi
      rw [if_pos rfl] at hm
      cases hm
      rw [hm2] at hl
      cases hl
      rw [hdecn] at hd
      cases hd
      rw [if_pos rfl]
    · rw [if_neg hi] at hm
      have hix := hF i m vl loc hm hl hd
      by_cases hln : loc = nloc
      · subst hln
        rw [hfree] at hix
        cases hix
      · rw [if_neg hln]
        exact hix
  · intro loc i hix
    simp only [setMd_locationToAssetId, setLocIx_locationToAssetId] at hix
    simp only [setMd_metadata, setLocIx_metadata]
    by_cases hln : loc = nloc
    · subst hln
      rw [if_pos rfl] at hix
      cases hix
      exact ⟨md2, nl, by rw [if_pos rfl], hm2, hdecn⟩
    · rw [if_neg hln] at hix
      obtain ⟨m, vl, hm, hl, hd⟩ := hB loc i hix
      by_cases hi : i = id
      · subst hi
        rw [hmd] at hm
        cases hm
        rw [hol] at hl
        cases hl
      · exact ⟨m, vl, by rw [if_neg hi]; exact hm, hl, hd⟩

theorem consistent_update_move (s : RegistryState) (id : AssetId) (md0 md2 : AssetMetadata)
    (ol nl : VersionedMultiLocation) (oloc nloc : MultiLocation)
    (h : Consistent s) (hmd : s.metadata id = some md0) (hol : md0.location = some ol)
    (hdeco : decodeLocation ol = some oloc) (hm2 : md2.location = some nl)
    (hdecn : decodeLocation nl = some nloc)
    (hfree : (setLocIx s oloc none).locationToAssetId nloc = none) :
    Consistent (setMd (setLocIx (setLocIx s oloc none) nloc (some id)) id (some md2)) := by
  obtain ⟨hF, hB⟩ := h
  have hself : s.locationToAssetId oloc = some id := hF id md0 ol oloc hmd hol hdeco
  simp only [setLocIx_locationToAssetId] at hfree
  constructor
  · intro i m vl loc hm hl hd
    simp only [setMd_metadata, setLocIx_metadata, setMd_locationToAssetId,
      setLocIx_locationToAssetId] at *
    by_cases hi : i = id
    · subst hi
      rw [if_pos rfl] at hm
      cases hm
      rw [hm2] at hl
      cases hl
      rw [hdecn] at hd
      cases hd
      rw [if_pos rfl]
    · rw [if_neg hi] at hm
      have hix := hF i m vl loc hm hl hd
      by_cases hln : loc = nloc
      · subst hln
        by_cases hno : loc = oloc
        · rw [if_pos hno] at hfree
          rw [hno, hself] at hix
          cases hix
          exact absurd rfl hi
        · rw [if_neg hno] at hfree
          rw [hfree] at hix
          cases hix
      · rw [if_neg hln]
        by_cases hlo : loc = oloc
        · rw [hlo, hself] at hix
          cases hix
          exact absurd rfl hi
        · rw [if_neg hlo]
          exact hix
  · intro loc i hix
    simp only [setMd_locationToAssetId, setLocIx_locationToAssetId] at hix
    simp only [setMd_metadata, setLocIx_metadata]
    by_cases hln : loc = nloc
    · subst hln
      rw [if_pos rfl] at hix
      cases hix
      exact ⟨md2, nl, by rw [if_pos rfl], hm2, hdecn⟩
    · rw [if_neg hln] at hix
      by_cases hlo : loc = oloc
      · rw [if_pos hlo] at hix
        cases hix
      · rw [if_neg hlo] at hix
        obtain ⟨m, vl, hm, hl, hd⟩ := hB loc i hix
        by_cases hi : i = id
        · subst hi
          rw [hmd] at hm
          cases hm
          rw [hol] at hl
          cases hl
          rw [hdeco] at hd
          cases hd
          exact absurd rfl hlo
        · exact ⟨m, vl, by rw [if_neg hi]; exact hm, hl, hd⟩

theorem consistent_do_update (asset_id : AssetId) (d : Option Nat) (n sy : Option (List Nat))
    (e : Option Balance) (l : Option (Option VersionedMultiLocation)) (a : Option CustomMetadata)
    (s s1 : RegistryState) (evs : List Event) (h : Consistent s)
    (hok : do_update_asset asset_id d n sy e l a s = (.ok (), s1, evs)) :
    Consistent s1 := by
  obtain ⟨md0, hmd, hcase⟩ := do_update_asset_ok asset_id d n sy e l a s s1 evs hok
  rcases hcase with ⟨hl, md2, hloc2, hs1, hevs⟩ | ⟨nl2, sMid, md2, hl, hloc2, hupd, hs1, hevs⟩
  · subst hs1
    exact consistent_update_keep s asset_id md0 md2 h hmd hloc2
  · subst hs1
    rcases do_update_location_ok asset_id md0.location nl2 s sMid hupd with
      ⟨heq, hsmid⟩ |
      ⟨hne, ⟨holn, nl, nloc, hnl, hdecn, hfree, hsmid⟩ |
        ⟨ol, oloc, holo, hdeco, ⟨hnone, hsmid⟩ | ⟨nl, nloc, hnl, hdecn, hfree, hsmid⟩⟩⟩
    · subst hsmid
      exact consistent_update_keep sMid asset_id md0 md2 h hmd (by rw [hloc2, heq])
    · subst hsmid
      subst hnl
      exact consistent_update_add s asset_id md0 md2 nl nloc h hmd holn hloc2 hdecn hfree
    · subst hsmid
      subst hnone
      exact consistent_update_clear s asset_id md0 md2 ol oloc h hmd holo hdeco hloc2
    · subst hsmid
      subst hnl
      exact consistent_update_move s asset_id md0 md2 ol nl oloc nloc h hmd holo hdeco hloc2
        hdecn hfree

theorem consistent_do_register (ap : AssetProcessor) (md : AssetMetadata) (aid : Option AssetId)
    (s s1 : RegistryState) (evs : List Event) (h : Consistent s)
    (hok : do_register_asset ap md aid s = (.ok (), s1, evs)) : Consistent s1 := by
  obtain ⟨id2, md2, hpre, hwap, hpost⟩ := do_register_asset_ok ap md aid s s1 evs hok
  obtain ⟨hfresh, hevs, hcase⟩ := register_wap_ok md2 id2 s s1 evs hwap
  rcases hcase with ⟨hloc, hs1⟩ | ⟨vl, loc, hloc, hdec, hfree, hs1⟩
  · subst hs1
    exact consistent_register_noloc s id2 md2 h hfresh hloc
  · subst hs1
    exact consistent_register_withloc s id2 md2 vl loc h hfresh hloc hdec hfree

theorem consistent_register_call (ap : AssetProcessor) (md : AssetMetadata)
    (aid : Option AssetId) (s : RegistryState) (h : Consistent s) :
    Consistent (register_asset ap md aid s).2.1 := by
  unfold register_asset
  rcases hres : do_register_asset ap md aid s with ⟨r, s1, evs⟩
  rcases r with e | u
  · exact h
  · cases u
    exact consistent_do_register ap md aid s s1 evs h hres

theorem consistent_update_call (asset_id : AssetId) (d : Option Nat) (n sy : Option (List Nat))
    (e : Option Balance) (l : Option (Option VersionedMultiLocation)) (a : Option CustomMetadata)
    (s : RegistryState) (h : Consistent s) :
    Consistent (update_asset asset_id d n sy e l a s).2.1 := by
  unfold update_asset
  rcases hres : do_update_asset asset_id d n sy e l a s with ⟨r, s1, evs⟩
  rcases r with er | u
  · exact h
  · cases u
    exact consistent_do_update asset_id d n sy e l a s s1 evs h hres

/-- C1: after every committed register_asset or update_asset operation,
every stored metadata location that decodes to canonical location L is
indexed in LocationToAssetId under exactly L, and every LocationToAssetId
entry maps a canonical location to an asset id whose stored metadata
location decodes to exactly that location; no dangling or orphaned index
entries exist in any reachable committed state. -/
theorem C1_bidirectional_consistency (ap : AssetProcessor) (s : RegistryState)
    (h : Reachable ap s) : Consistent s := by
  induction h with
  | init => exact consistent_initial
  | register md aid s0 _ ih => exact consistent_register_call ap md aid s0 ih
  | update asset_id d n sy e l a s0 _ ih => exact consistent_update_call asset_id d n sy e l a s0 ih

/-- Witness for C1: the invariant evaluated in the committed state after a
concrete registration from genesis. -/
theorem C1_bidirectional_consistency_witness :
    Consistent (register_asset apNoop mdA (some 7) initialState).2.1 :=
  C1_bidirectional_consistency apNoop (register_asset apNoop mdA (some 7) initialState).2.1
    (Reachable.register mdA (some 7) initialState Reachable.init)

theorem register_asset_ok_inv (ap : AssetProcessor) (md : AssetMetadata) (aid : Option AssetId)
    (s s1 : RegistryState) (evs : List Event)
    (h : register_asset ap md aid s = (.ok (), s1, evs)) :
    do_register_asset ap md aid s = (.ok (), s1, evs) := by
  unfold register_asset at h
  rcases hdo : do_register_asset ap md aid s with ⟨r, s2, evs2⟩
  simp only [hdo] at h
  rcases r with er | u
  · exact Except.noConfusion (congrArg Prod.fst h)
  · cases u
    have hs : s2 = s1 := congrArg (fun p => p.snd.fst) h
    have he : evs2 = evs := congrArg (fun p => p.snd.snd) h
    subst hs
    subst he
    rfl

theorem update_asset_ok_inv (asset_id : AssetId) (d : Option Nat) (n sy : Option (List Nat))
    (e : Option Balance) (l : Option (Option VersionedMultiLocation)) (a : Option CustomMetadata)
    (s s1 : RegistryState) (evs : List Event)
    (h : update_asset asset_id d n sy e l a s = (.ok (), s1, evs)) :
    do_update_asset asset_id d n sy e l a s = (.ok (), s1, evs) := by
  unfold update_asset at h
  rcases hdo : do_update_asset asset_id d n sy e l a s with ⟨r, s2, evs2⟩
  simp only [hdo] at h
  rcases r with er | u
  · exact Except.noConfusion (congrArg Prod.fst h)
  · cases u
    have hs : s2 = s1 := congrArg (fun p => p.snd.fst) h
    have he : evs2 = evs := congrArg (fun p => p.snd.snd) h
    subst hs
    subst he
    rfl

/-- C2: when RegistrationHook.post_register fails after the metadata and
index writes and the RegisteredAsset event have been performed, the whole
transactional register_asset call aborts with that error and leaves the
state exactly as before the call: no Metadata entry, no LocationToAssetId
entry, and no emitted event for that registration. -/
theorem C2_post_register_failure_rollback (ap : AssetProcessor) (md : AssetMetadata)
    (aid : Option AssetId) (s : RegistryState) (id2 : AssetId) (md2 : AssetMetadata) (e : Error)
    (hpre : ap.pre_register aid md = .ok (id2, md2))
    (hok : (do_register_asset_without_asset_processor md2 id2 s).1 = .ok ())
    (hpost : ap.post_register id2 md2 = .error e) :
    register_asset ap md aid s = (.error e, s, []) ∧
      (register_asset ap md aid s).2.1.metadata id2 = none := by
  rcases hwap : do_register_asset_without_asset_processor md2 id2 s with ⟨r, s1, evs⟩
  rw [hwap] at hok
  rcases r with er | u
  · exact Except.noConfusion hok
  · cases u
    obtain ⟨hfresh, _, _⟩ := register_wap_ok md2 id2 s s1 evs hwap
    have hmain : register_asset ap md aid s = (.error e, s, []) := by
      unfold register_asset do_register_asset
      simp only [hpre, hwap, hpost]
    refine ⟨hmain, ?_⟩
    rw [hmain]
    exact hfresh

/-- Witness for C2 at a concrete failing post-registration hook. -/
theorem C2_post_register_failure_rollback_witness :
    register_asset apFailPost mdA (some 7) initialState
        = (.error .InvalidAssetId, initialState, []) ∧
      (register_asset apFailPost mdA (some 7) initialState).2.1.metadata 7 = none :=
  C2_post_register_failure_rollback apFailPost mdA (some 7) initialState 7 mdA
    .InvalidAssetId rfl rfl rfl

/-- C4: a registration whose finalized metadata contains an undecodable
location returns BadVersion and afterwards there is no Metadata entry and
no LocationToAssetId entry for that asset id (full rollback). -/
theorem C4_bad_version_registration_rollback (ap : AssetProcessor) (md : AssetMetadata)
    (aid : Option AssetId) (s : RegistryState) (id2 : AssetId) (md2 : AssetMetadata)
    (vl : VersionedMultiLocation)
    (hpre : ap.pre_register aid md = .ok (id2, md2))
    (hloc : md2.location = some vl)
    (hdec : decodeLocation vl = none)
    (hfresh : s.metadata id2 = none)
    (hnoix : ∀ l, s.locationToAssetId l ≠ some id2) :
    register_asset ap md aid s = (.error .BadVersion, s, []) ∧
      (register_asset ap md aid s).2.1.metadata id2 = none ∧
      ∀ l, (register_asset ap md aid s).2.1.locationToAssetId l ≠ some id2 := by
  have hmain : register_asset ap md aid s = (.error .BadVersion, s, []) := by
    unfold register_asset do_register_asset do_register_asset_without_asset_processor
      do_insert_location
    simp only [hpre, hfresh, hloc, hdec]
  refine ⟨hmain, ?_, ?_⟩
  · rw [hmain]
    exact hfresh
  · rw [hmain]
    exact hnoix

/-- Witness for C4 at a concrete undecodable location. -/
theorem C4_bad_version_registration_rollback_witness :
    register_asset apNoop mdBad (some 7) initialState = (.error .BadVersion, initialState, []) ∧
      (register_asset apNoop mdBad (some 7) initialState).2.1.metadata 7 = none ∧
      ∀ l, (register_asset apNoop mdBad (some 7) initialState).2.1.locationToAssetId l
          ≠ some 7 :=
  C4_bad_version_registration_rollback apNoop mdBad (some 7) initialState 7 mdBad vlBad
    rfl rfl rfl rfl (fun _ h => Option.noConfusion h)

/-- C5: registering an asset id that is already present fails with
ConflictingAssetId and leaves the first record and the whole location
index unchanged. -/
theorem C5_conflicting_asset_id (ap : AssetProcessor) (md md0 md2 : AssetMetadata)
    (id2 : AssetId) (s : RegistryState)
    (hmd : s.metadata id2 = some md0)
    (hpre : ap.pre_register (some id2) md = .ok (id2, md2)) :
    register_asset ap md (some id2) s = (.error .ConflictingAssetId, s, []) ∧
      (register_asset ap md (some id2) s).2.1.metadata id2 = some md0 ∧
      ∀ l, (register_asset ap md (some id2) s).2.1.locationToAssetId l
          = s.locationToAssetId l := by
  have hmain : register_asset ap md (some id2) s = (.error .ConflictingAssetId, s, []) := by
    unfold register_asset do_register_asset do_register_asset_without_asset_processor
    simp only [hpre, hmd]
  refine ⟨hmain, ?_, ?_⟩
  · rw [hmain]
    exact hmd
  · rw [hmain]
    intro l
    rfl

/-- Witness for C5: re-registering id 1 of stateA. -/
theorem C5_conflicting_asset_id_witness :
    register_asset apNoop mdB (some 1) stateA = (.error .ConflictingAssetId, stateA, []) ∧
      (register_asset apNoop mdB (some 1) stateA).2.1.metadata 1 = some mdA ∧
      ∀ l, (register_asset apNoop mdB (some 1) stateA).2.1.locationToAssetId l
          = stateA.locationToAssetId l :=
  C5_conflicting_asset_id apNoop mdB mdA mdB 1 stateA rfl rfl

/-- C6: round trip.  After a successful registration whose finalized
metadata has a location that decodes to canonical L, looking the canonical
location up returns the stored metadata and resolving the asset id returns
Ok (some L). -/
theorem C6_round_trip (ap : AssetProcessor) (md : AssetMetadata) (aid : Option AssetId)
    (s : RegistryState) (id2 : AssetId) (md2 : AssetMetadata) (vl : VersionedMultiLocation)
    (loc : MultiLocation)
    (hpre : ap.pre_register aid md = .ok (id2, md2))
    (hloc : md2.location = some vl)
    (hdec : decodeLocation vl = some loc)
    (hok : (register_asset ap md aid s).1 = .ok ()) :
    fetch_metadata_by_location (register_asset ap md aid s).2.1 loc = some md2 ∧
      multilocation (register_asset ap md aid s).2.1 id2 = .ok (some loc) := by
  rcases hreg : register_asset ap md aid s with ⟨r, s1, evs⟩
  rw [hreg] at hok
  rcases r with er | u
  · exact Except.noConfusion hok
  · cases u
    have hdo := register_asset_ok_inv ap md aid s s1 evs hreg
    obtain ⟨id3, md3, hpre2, hwap, _⟩ := do_register_asset_ok ap md aid s s1 evs hdo
    rw [hpre] at hpre2
    injection hpre2 with hpair
    injection hpair with hid hmd23
    subst hid
    subst hmd23
    obtain ⟨hfresh, _, hcase⟩ := register_wap_ok md2 id2 s s1 evs hwap
    rcases hcase with ⟨hlocn, _⟩ | ⟨vl2, loc2, hloc2, hdec2, hfree, hs1⟩
    · rw [hloc] at hlocn
      exact Option.noConfusion hlocn
    · rw [hloc] at hloc2
      injection hloc2 with hvl
      subst hvl
      rw [hdec] at hdec2
      injection hdec2 with hloceq
      subst hloceq
      subst hs1
      constructor
      · unfold fetch_metadata_by_location
        simp
      · unfold multilocation
        simp [hloc, hdec]

/-- Witness for C6 at a concrete registration from genesis. -/
theorem C6_round_trip_witness :
    fetch_metadata_by_location (register_asset apNoop mdA (some 7) initialState).2.1 10
        = some mdA ∧
      multilocation (register_asset apNoop mdA (some 7) initialState).2.1 7 = .ok (some 10) :=
  C6_round_trip apNoop mdA (some 7) initialState 7 mdA vlA 10 rfl rfl rfl rfl

theorem do_update_asset_noloc_ok (asset_id : AssetId) (d : Option Nat) (n sy : Option (List Nat))
    (e : Option Balance) (a : Option CustomMetadata) (s : RegistryState) (md0 : AssetMetadata)
    (hmd : s.metadata asset_id = some md0) :
    do_update_asset asset_id d n sy e none a s =
      (.ok (), setMd s asset_id (some
        { md0 with
          decimals := d.getD md0.decimals
          name := n.getD md0.name
          symbol := sy.getD md0.symbol
          existential_deposit := e.getD md0.existential_deposit
          additional := a.getD md0.additional }),
        [.UpdatedAsset asset_id
          { md0 with
            decimals := d.getD md0.decimals
            name := n.getD md0.name
            symbol := sy.getD md0.symbol
            existential_deposit := e.getD md0.existential_deposit
            additional := a.getD md0.additional }]) := by
  unfold do_update_asset
  simp only [hmd]

theorem do_update_asset_loc_ok (asset_id : AssetId) (d : Option Nat) (n sy : Option (List Nat))
    (e : Option Balance) (a : Option CustomMetadata) (nl2 : Option VersionedMultiLocation)
    (s sMid : RegistryState) (md0 : AssetMetadata)
    (hmd : s.metadata asset_id = some md0)
    (hupd : do_update_location asset_id md0.location nl2 s = (.ok (), sMid)) :
    do_update_asset asset_id d n sy e (some nl2) a s =
      (.ok (), setMd sMid asset_id (some
        { md0 with
          decimals := d.getD md0.decimals
          name := n.getD md0.name
          symbol := sy.getD md0.symbol
          existential_deposit := e.getD md0.existential_deposit
          location := nl2
          additional := a.getD md0.additional }),
        [.UpdatedAsset asset_id
          { md0 with
            decimals := d.getD md0.decimals
            name := n.getD md0.name
            symbol := sy.getD md0.symbol
            existential_deposit := e.getD md0.existential_deposit
            location := nl2
            additional := a.getD md0.additional }]) := by
  unfold do_update_asset
  simp only [hmd, hupd]

theorem do_update_asset_loc_error (asset_id : AssetId) (d : Option Nat)
    (n sy : Option (List Nat)) (e : Option Balance) (a : Option CustomMetadata)
    (nl2 : Option VersionedMultiLocation) (s sBad : RegistryState) (md0 : AssetMetadata)
    (er : Error)
    (hmd : s.metadata asset_id = some md0)
    (hupd : do_update_location asset_id md0.location nl2 s = (.error er, sBad)) :
    do_update_asset asset_id d n sy e (some nl2) a s = (.error er, sBad, []) := by
  unfold do_update_asset
  simp only [hmd, hupd]

theorem update_asset_of_do_ok (asset_id : AssetId) (d : Option Nat) (n sy : Option (List Nat))
    (e : Option Balance) (l : Option (Option VersionedMultiLocation))
    (a : Option CustomMetadata) (s s1 : RegistryState) (evs : List Event)
    (hdo : do_update_asset asset_id d n sy e l a s = (.ok (), s1, evs)) :
    update_asset asset_id d n sy e l a s = (.ok (), s1, evs) := by
  unfold update_asset
  simp only [hdo]

theorem update_asset_of_do_error (asset_id : AssetId) (d : Option Nat)
    (n sy : Option (List Nat)) (e : Option Balance)
    (l : Option (Option VersionedMultiLocation)) (a : Option CustomMetadata)
    (s sBad : RegistryState) (evs : List Event) (er : Error)
    (hdo : do_update_asset asset_id d n sy e l a s = (.error er, sBad, evs)) :
    update_asset asset_id d n sy e l a s = (.error er, s, []) := by
  unfold update_asset
  simp only [hdo]

/-- C3: location migration.  In a state where asset A holds location vl1
(canonical l1) and another asset B occupies canonical l2, updating A to
the versioned location vl2 (canonical l2) fails with ConflictingLocation
and, the call being transactional, leaves the state exactly as before.
In a state where l2 is instead unheld, the same call succeeds, removes
the l1 index mapping (lookup by l1 yields none) and establishes l2 to A. -/
theorem C3_location_migration (s1 s2 : RegistryState) (A B : AssetId)
    (mdA1 mdA2 : AssetMetadata) (vl1 vl2 : VersionedMultiLocation) (l1 l2 : MultiLocation)
    (hd1 : decodeLocation vl1 = some l1) (hd2 : decodeLocation vl2 = some l2)
    (hm1 : s1.metadata A = some mdA1) (hl1 : mdA1.location = some vl1)
    (hx1 : s1.locationToAssetId l1 = some A) (hx2 : s1.locationToAssetId l2 = some B)
    (hBA : B ≠ A)
    (hm2 : s2.metadata A = some mdA2) (hl2m : mdA2.location = some vl1)
    (hx3 : s2.locationToAssetId l1 = some A) (hx4 : s2.locationToAssetId l2 = none) :
    update_asset A none none none none (some (some vl2)) none s1
        = (.error .ConflictingLocation, s1, []) ∧
      (update_asset A none none none none (some (some vl2)) none s2).1 = .ok () ∧
      fetch_metadata_by_location
        (update_asset A none none none none (some (some vl2)) none s2).2.1 l1 = none ∧
      (update_asset A none none none none (some (some vl2)) none s2).2.1.locationToAssetId l2
        = some A := by
  have hll1 : l2 ≠ l1 := by
    intro hcontra
    rw [hcontra, hx1] at hx2
    exact hBA (Option.some.inj hx2).symm
  have hvl : (some vl2 : Option VersionedMultiLocation) ≠ some vl1 := by
    intro hcontra
    have hv := Option.some.inj hcontra
    rw [hv, hd1] at hd2
    exact hll1 (Option.some.inj hd2).symm
  refine ⟨?_, ?_⟩
  · have hupd : do_update_location A mdA1.location (some vl2) s1
        = (.error .ConflictingLocation, setLocIx s1 l1 none) := by
      unfold do_update_location do_insert_location
      rw [hl1, if_pos hvl]
      simp only [hd1, hd2, setLocIx_locationToAssetId, if_neg hll1, hx2]
    exact update_asset_of_do_error A none none none none (some (some vl2)) none s1
      (setLocIx s1 l1 none) [] .ConflictingLocation
      (do_update_asset_loc_error A none none none none none (some vl2) s1
        (setLocIx s1 l1 none) mdA1 .ConflictingLocation hm1 hupd)
  · have hlls : l2 ≠ l1 := by
      intro hcontra
      rw [hcontra, hx3] at hx4
      exact Option.noConfusion hx4
    have hupd : do_update_location A mdA2.location (some vl2) s2
        = (.ok (), setLocIx (setLocIx s2 l1 none) l2 (some A)) := by
      unfold do_update_location do_insert_location
      rw [hl2m, if_pos hvl]
      simp only [hd1, hd2, setLocIx_locationToAssetId, if_neg hlls, hx4]
    have hfin := update_asset_of_do_ok A none none none none (some (some vl2)) none s2 _ _
      (do_update_asset_loc_ok A none none none none none (some vl2) s2
        (setLocIx (setLocIx s2 l1 none) l2 (some A)) mdA2 hm2 hupd)
    rw [hfin]
    refine ⟨rfl, ?_, ?_⟩
    · unfold fetch_metadata_by_location
      rw [setMd_locationToAssetId, setLocIx_locationToAssetId, if_neg hlls.symm,
        setLocIx_locationToAssetId, if_pos rfl]
    · rw [setMd_locationToAssetId, setLocIx_locationToAssetId, if_pos rfl]

/-- Witness for C3: asset 1 holds vlA (canonical 10); in stateAB asset 2
occupies canonical 20, in stateA location 20 is unheld. -/
theorem C3_location_migration_witness :
    update_asset 1 none none none none (some (some vlB)) none stateAB
        = (.error .ConflictingLocation, stateAB, []) ∧
      (update_asset 1 none none none none (some (some vlB)) none stateA).1 = .ok () ∧
      fetch_metadata_by_location
        (update_asset 1 none none none none (some (some vlB)) none stateA).2.1 10 = none ∧
      (update_asset 1 none none none none (some (some vlB)) none stateA).2.1.locationToAssetId
        20 = some 1 :=
  C3_location_migration stateAB stateA 1 2 mdA mdA vlA vlB 10 20 rfl rfl rfl rfl rfl rfl
    (by decide) rfl rfl rfl rfl

/-- C7: clearing the location.  Updating a registered asset whose stored
location decodes to canonical L with the argument some none succeeds,
removes the index entry for L, sets the stored location field to none,
and afterwards resolving the asset id returns Ok none. -/
theorem C7_clearing (asset_id : AssetId) (s : RegistryState) (md0 : AssetMetadata)
    (vl : VersionedMultiLocation) (loc : MultiLocation)
    (hmd : s.metadata asset_id = some md0) (hol : md0.location = some vl)
    (hdec : decodeLocation vl = some loc) :
    (update_asset asset_id none none none none (some none) none s).1 = .ok () ∧
      fetch_metadata_by_location
        (update_asset asset_id none none none none (some none) none s).2.1 loc = none ∧
      (update_asset asset_id none none none none (some none) none s).2.1.metadata asset_id
        = some { md0 with location := none } ∧
      multilocation (update_asset asset_id none none none none (some none) none s).2.1
        asset_id = .ok none := by
  have hupd : do_update_location asset_id md0.location none s
      = (.ok (), setLocIx s loc none) := by
    unfold do_update_location
    rw [hol, if_pos (fun hcontra => Option.noConfusion hcontra)]
    simp only [hdec]
  have hfin := update_asset_of_do_ok asset_id none none none none (some none) none s _ _
    (do_update_asset_loc_ok asset_id none none none none none none s
      (setLocIx s loc none) md0 hmd hupd)
  rw [hfin]
  refine ⟨rfl, ?_, ?_, ?_⟩
  · unfold fetch_metadata_by_location
    rw [setMd_locationToAssetId, setLocIx_locationToAssetId, if_pos rfl]
  · rw [setMd_metadata, if_pos rfl]
    rfl
  · unfold multilocation
    rw [setMd_metadata, if_pos rfl]

/-- Witness for C7: clearing the location of asset 1 in stateA. -/
theorem C7_clearing_witness :
    (update_asset 1 none none none none (some none) none stateA).1 = .ok () ∧
      fetch_metadata_by_location
        (update_asset 1 none none none none (some none) none stateA).2.1 10 = none ∧
      (update_asset 1 none none none none (some none) none stateA).2.1.metadata 1
        = some { mdA with location := none } ∧
      multilocation (update_asset 1 none none none none (some none) none stateA).2.1 1
        = .ok none :=
  C7_clearing 1 stateA mdA vlA 10 rfl rfl rfl

/-- C8: update frame property.  Every successful update_asset call
overwrites exactly the supplied fields, keeps each unsupplied field,
leaves the location field and the LocationToAssetId index unchanged when
the location argument is absent, and emits exactly one UpdatedAsset event
carrying the updated record. -/
theorem C8_update_frame (asset_id : AssetId) (d : Option Nat) (n sy : Option (List Nat))
    (e : Option Balance) (l : Option (Option VersionedMultiLocation)) (a : Option CustomMetadata)
    (s : RegistryState) (md0 : AssetMetadata)
    (hmd : s.metadata asset_id = some md0)
    (hok : (update_asset asset_id d n sy e l a s).1 = .ok ()) :
    ∃ md1, (update_asset asset_id d n sy e l a s).2.1.metadata asset_id = some md1 ∧
      md1.decimals = d.getD md0.decimals ∧
      md1.name = n.getD md0.name ∧
      md1.symbol = sy.getD md0.symbol ∧
      md1.existential_deposit = e.getD md0.existential_deposit ∧
      md1.additional = a.getD md0.additional ∧
      md1.location = l.getD md0.location ∧
      (update_asset asset_id d n sy e l a s).2.2 = [.UpdatedAsset asset_id md1] ∧
      (l = none → ∀ x, (update_asset asset_id d n sy e l a s).2.1.locationToAssetId x
        = s.locationToAssetId x) := by
  rcases hl : l with _ | nl2
  · have hfin := update_asset_of_do_ok asset_id d n sy e none a s _ _
      (do_update_asset_noloc_ok asset_id d n sy e a s md0 hmd)
    rw [hfin]
    refine ⟨{ md0 with
        decimals := d.getD md0.decimals
        name := n.getD md0.name
        symbol := sy.getD md0.symbol
        existential_deposit := e.getD md0.existential_deposit
        additional := a.getD md0.additional }, ?_, rfl, rfl, rfl, rfl, rfl, rfl, rfl,
      fun _ x => rfl⟩
    rw [setMd_metadata, if_pos rfl]
  · subst hl
    rcases hupd : update_asset asset_id d n sy e (some nl2) a s with ⟨r, s1, evs⟩
    rw [hupd] at hok
    rcases r with er | u
    · exact Except.noConfusion hok
    · cases u
      have hdo := update_asset_ok_inv asset_id d n sy e (some nl2) a s s1 evs hupd
      unfold do_update_asset at hdo
      simp only [hmd] at hdo
      rcases hloc : do_update_location asset_id md0.location nl2 s with ⟨r2, sMid⟩
      have hloc2 : do_update_location asset_id
          (AssetMetadata.location
            { md0 with
              decimals := d.getD md0.decimals
              name := n.getD md0.name
              symbol := sy.getD md0.symbol
              existential_deposit := e.getD md0.existential_deposit })
          nl2 s = (r2, sMid) := hloc
      rcases r2 with er | u2
      · simp only [hloc2] at hdo
        exact Except.noConfusion (congrArg Prod.fst hdo)
      · cases u2
        simp only [hloc2] at hdo
        have hs1 : setMd sMid asset_id (some
            { md0 with
              decimals := d.getD md0.decimals
              name := n.getD md0.name
              symbol := sy.getD md0.symbol
              existential_deposit := e.getD md0.existential_deposit
              location := nl2
              additional := a.getD md0.additional }) = s1 :=
          congrArg (fun p => p.snd.fst) hdo
        have hevs : [Event.UpdatedAsset asset_id
            { md0 with
              decimals := d.getD md0.decimals
              name := n.getD md0.name
              symbol := sy.getD md0.symbol
              existential_deposit := e.getD md0.existential_deposit
              location := nl2
              additional := a.getD md0.additional }] = evs :=
          congrArg (fun p => p.snd.snd) hdo
        subst hs1
        subst hevs
        refine ⟨{ md0 with
            decimals := d.getD md0.decimals
            name := n.getD md0.name
            symbol := sy.getD md0.symbol
            existential_deposit := e.getD md0.existential_deposit
            location := nl2
            additional := a.getD md0.additional }, ?_, rfl, rfl, rfl, rfl, rfl, rfl, rfl,
          fun hcontra => Option.noConfusion hcontra⟩
        rw [setMd_metadata, if_pos rfl]

/-- Witness for C8: updating only the decimals of asset 1 in stateA. -/
theorem C8_update_frame_witness :
    ∃ md1, (update_asset 1 (some 8) none none none none none stateA).2.1.metadata 1
        = some md1 ∧
      md1.decimals = (some 8).getD mdA.decimals ∧
      md1.name = (none : Option (List Nat)).getD mdA.name ∧
      md1.symbol = (none : Option (List Nat)).getD mdA.symbol ∧
      md1.existential_deposit = (none : Option Balance).getD mdA.existential_deposit ∧
      md1.additional = (none : Option CustomMetadata).getD mdA.additional ∧
      md1.location = (none : Option (Option VersionedMultiLocation)).getD mdA.location ∧
      (update_asset 1 (some 8) none none none none none stateA).2.2
        = [.UpdatedAsset 1 md1] ∧
      ((none : Option (Option VersionedMultiLocation)) = none →
        ∀ x, (update_asset 1 (some 8) none none none none none stateA).2.1.locationToAssetId x
          = stateA.locationToAssetId x) :=
  C8_update_frame 1 (some 8) none none none none none stateA mdA rfl rfl

/-- C9: supplying a location argument that is equal, as a versioned value,
to the stored location never touches the LocationToAssetId index and
always succeeds, even when that (identical) value is undecodable, because
the change guard compares versioned encodings. -/
theorem C9_identical_location_untouched (asset_id : AssetId) (d : Option Nat)
    (n sy : Option (List Nat)) (e : Option Balance) (a : Option CustomMetadata)
    (s : RegistryState) (md0 : AssetMetadata)
    (hmd : s.metadata asset_id = some md0) :
    (update_asset asset_id d n sy e (some md0.location) a s).1 = .ok () ∧
      ∀ x, (update_asset asset_id d n sy e (some md0.location) a s).2.1.locationToAssetId x
        = s.locationToAssetId x := by
  have hupd : do_update_location asset_id md0.location md0.location s = (.ok (), s) := by
    unfold do_update_location
    rw [if_neg (by intro hcontra; exact hcontra rfl)]
  have hfin := update_asset_of_do_ok asset_id d n sy e (some md0.location) a s _ _
    (do_update_asset_loc_ok asset_id d n sy e a md0.location s s md0 hmd hupd)
  rw [hfin]
  exact ⟨rfl, fun x => rfl⟩

/-- Witness for C9: asset 1 of stateBadLoc stores the undecodable location
vlBad; re-supplying the identical value succeeds and keeps the index. -/
theorem C9_identical_location_untouched_witness :
    (update_asset 1 none none none none (some mdBad.location) none stateBadLoc).1 = .ok () ∧
      ∀ x, (update_asset 1 none none none none (some mdBad.location) none
          stateBadLoc).2.1.locationToAssetId x = stateBadLoc.locationToAssetId x :=
  C9_identical_location_untouched 1 none none none none none stateBadLoc mdBad rfl

/-- C10: when the stored versioned location is undecodable, any update that
supplies a different location value (including clearing) fails with
BadVersion, because removing the old index entry requires decoding the old
stored location; the transactional call leaves the whole state unchanged. -/
theorem C10_undecodable_stored_location_bad_version (asset_id : AssetId) (d : Option Nat)
    (n sy : Option (List Nat)) (e : Option Balance) (a : Option CustomMetadata)
    (nl2 : Option VersionedMultiLocation) (s : RegistryState) (md0 : AssetMetadata)
    (vl : VersionedMultiLocation)
    (hmd : s.metadata asset_id = some md0) (hol : md0.location = some vl)
    (hdec : decodeLocation vl = none) (hne : nl2 ≠ md0.location) :
    update_asset asset_id d n sy e (some nl2) a s = (.error .BadVersion, s, []) := by
  have hupd : do_update_location asset_id md0.location nl2 s = (.error .BadVersion, s) := by
    unfold do_update_location
    rw [if_pos hne, hol]
    simp only [hdec]
  exact update_asset_of_do_error asset_id d n sy e (some nl2) a s s [] .BadVersion
    (do_update_asset_loc_error asset_id d n sy e a nl2 s s md0 .BadVersion hmd hupd)

/-- Witness for C10: clearing the undecodable location of asset 1 in
stateBadLoc fails with BadVersion and changes nothing. -/
theorem C10_undecodable_stored_location_bad_version_witness :
    update_asset 1 none none none none (some none) none stateBadLoc
      = (.error .BadVersion, stateBadLoc, []) :=
  C10_undecodable_stored_location_bad_version 1 none none none none none none stateBadLoc
    mdBad vlBad rfl rfl rfl (by decide)

end AssetRegistry
